import Mathlib

/-!
Verification of the country service handlers (src/handler.ts) against its
specification.  The handlers are embedded shallowly: each Lambda handler
becomes a pure Lean function over an explicit store state, JavaScript
number quirks (NaN from parseInt, slice index coercion) are modelled by an
explicit numeric type, and DynamoDB operations (get, scan, query, put,
batchWrite) become list operations on the state.
-/

/-- Model of a JavaScript number as it flows through the listing handler:
either NaN (from a failed parseInt), +Infinity (from dividing a positive
total by zero), or an integer.  All values the handler actually computes
are integral, so no fractional constructor is needed. -/
inductive JNum where
  | nan : JNum
  | inf : JNum
  | int : Int → JNum
deriving Repr, DecidableEq

/-- JavaScript subtraction restricted to the values the handler produces
(parseInt results are never Infinity, so the Infinity rows never feed this
operation; they are mapped to NaN). -/
def jnSub : JNum → JNum → JNum
  | JNum.int a, JNum.int b => JNum.int (a - b)
  | _, _ => JNum.nan

/-- JavaScript multiplication, same restriction as jnSub. -/
def jnMul : JNum → JNum → JNum
  | JNum.int a, JNum.int b => JNum.int (a * b)
  | _, _ => JNum.nan

/-- JavaScript addition, same restriction as jnSub. -/
def jnAdd : JNum → JNum → JNum
  | JNum.int a, JNum.int b => JNum.int (a + b)
  | _, _ => JNum.nan

/-- JavaScript strict less-than: every comparison with NaN is false;
Infinity is below nothing and above every integer. -/
def jnLt : JNum → JNum → Bool
  | JNum.nan, _ => false
  | _, JNum.nan => false
  | JNum.inf, _ => false
  | JNum.int _, JNum.inf => true
  | JNum.int a, JNum.int b => a < b

/-- Embedding of JavaScript parseInt with radix 10 on the strings the
handler receives: optional leading whitespace, an optional sign, then the
longest prefix of decimal digits; NaN when no digit is found. -/
def parseIntJs (s : String) : JNum :=
  let cs := s.toList.dropWhile (fun c => c = ' ' ∨ c = '\t' ∨ c = '\n' ∨ c = '\r')
  let signAndRest : Int × List Char :=
    match cs with
    | '-' :: r => (-1, r)
    | '+' :: r => (1, r)
    | r => (1, r)
  let digits := signAndRest.2.takeWhile Char.isDigit
  if digits.isEmpty then JNum.nan
  else JNum.int (signAndRest.1 *
    (digits.foldl (fun acc c => acc * 10 + (c.toNat - '0'.toNat)) 0 : Nat))

/-- Embedding of Math.ceil(total / limit) as the handler computes pages:
total is the (nonnegative) item count, limit the parsed limit.  Division
by NaN gives NaN; by Infinity gives 0; by zero gives Infinity for a
positive total and NaN for zero; by a positive n the usual ceiling; by a
negative n the ceiling of a nonpositive quotient, which truncates. -/
def jsCeilDiv (total : Nat) (l : JNum) : JNum :=
  match l with
  | JNum.nan => JNum.nan
  | JNum.inf => JNum.int 0
  | JNum.int n =>
    if 0 < n then JNum.int (((total + n.toNat - 1) / n.toNat : Nat))
    else if n = 0 then (if total = 0 then JNum.nan else JNum.inf)
    else JNum.int (-((total / (-n).toNat : Nat) : Int))

/-- Index coercion of Array.prototype.slice: NaN becomes 0, a negative
index counts from the end (clamped at 0), a large index clamps to the
length.  Infinity clamps to the length. -/
def jsSliceIndex (len : Nat) : JNum → Nat
  | JNum.nan => 0
  | JNum.inf => len
  | JNum.int n => if n < 0 then len - (-n).toNat else min n.toNat len

/-- Embedding of xs.slice(a, b): the elements with index k ≤ i < final
where k and final are the coerced indices. -/
def jsSlice {α : Type} (xs : List α) (a b : JNum) : List α :=
  let k := jsSliceIndex xs.length a
  let fin := jsSliceIndex xs.length b
  (xs.drop k).take (fin - k)

/-- A record of the CountryTable as the handlers see it: countryID is the
key; every other attribute may be absent on an arbitrary stored item, so
each is an Option.  Numeric attributes are modelled as integers. -/
structure Country where
  countryID : String
  name : Option String := none
  capital : Option String := none
  region : Option String := none
  currency : Option String := none
  subregion : Option String := none
  population : Option Int := none
  area : Option Int := none
deriving Repr, DecidableEq

/-- The sort field the switch on sort_by resolves to. -/
inductive SortField where
  | nameF : SortField
  | populationF : SortField
  | areaF : SortField
deriving Repr, DecidableEq

/-- The switch statement on sort_by: the six recognized values map to a
field and a direction (1 ascending, -1 descending); anything else falls
back to name ascending. -/
def resolveSort (sort_by : String) : SortField × Int :=
  if sort_by = "a_to_z" then (SortField.nameF, 1)
  else if sort_by = "z_to_a" then (SortField.nameF, -1)
  else if sort_by = "population_high_to_low" then (SortField.populationF, -1)
  else if sort_by = "population_low_to_high" then (SortField.populationF, 1)
  else if sort_by = "area_high_to_low" then (SortField.areaF, -1)
  else if sort_by = "area_low_to_high" then (SortField.areaF, 1)
  else (SortField.nameF, 1)

/-- Lexicographic strict order on character lists by code point, the
order JavaScript's < applies to strings. -/
def ltCharList : List Char → List Char → Bool
  | [], [] => false
  | [], _ :: _ => true
  | _ :: _, [] => false
  | a :: as, b :: bs => if a = b then ltCharList as bs else a.toNat < b.toNat

/-- JavaScript < on two possibly-absent string attributes: any comparison
involving undefined is false; two present strings compare
lexicographically. -/
def jsLtOptStr : Option String → Option String → Bool
  | some a, some b => ltCharList a.toList b.toList
  | _, _ => false

/-- JavaScript < on two possibly-absent numeric attributes. -/
def jsLtOptInt : Option Int → Option Int → Bool
  | some a, some b => a < b
  | _, _ => false

/-- The comparator the handler passes to Items.sort:
aValue < bValue ? -1*dir : aValue > bValue ? 1*dir : 0.  Because every
comparison with undefined is false, a pair where either side lacks the
field yields 0. -/
def countryCompare (f : SortField) (dir : Int) (a b : Country) : Int :=
  match f with
  | SortField.nameF =>
    if jsLtOptStr a.name b.name then -1 * dir
    else if jsLtOptStr b.name a.name then 1 * dir else 0
  | SortField.populationF =>
    if jsLtOptInt a.population b.population then -1 * dir
    else if jsLtOptInt b.population a.population then 1 * dir else 0
  | SortField.areaF =>
    if jsLtOptInt a.area b.area then -1 * dir
    else if jsLtOptInt b.area a.area then 1 * dir else 0

/-- Insertion of an element into an already sorted suffix, keeping it
before every element it compares ≤ 0 against so that earlier array
positions stay first on ties (stability). -/
def insertCountry (f : SortField) (dir : Int) (x : Country) :
    List Country → List Country
  | [] => [x]
  | y :: ys =>
    if countryCompare f dir x y ≤ 0 then x :: y :: ys
    else y :: insertCountry f dir x ys

/-- Items.sort with the handler's comparator, modelled as a stable
insertion sort (V8's Array.prototype.sort is stable). -/
def sortCountries (f : SortField) (dir : Int) : List Country → List Country
  | [] => []
  | x :: xs => insertCountry f dir x (sortCountries f dir xs)

/-- Contiguous-substring test on character lists: needle occurs verbatim
somewhere in hay. -/
def containsSub : List Char → List Char → Bool
  | hay, needle =>
    needle.isPrefixOf hay ||
      match hay with
      | [] => false
      | _ :: t => containsSub t needle

/-- DynamoDB contains(path, operand) on a possibly-absent string
attribute: false when the attribute is absent, otherwise a case-sensitive
literal substring test. -/
def dynContains (attr : Option String) (pat : String) : Bool :=
  match attr with
  | none => false
  | some s => containsSub s.toList pat.toList

/-- The scan FilterExpression the handler installs when search is truthy:
contains(#name, :search) OR contains(#region, :search) OR
contains(#subregion, :search).  The operand :search is
(new RegExp(search, "i")).source; for search strings made only of
characters with no meaning in a regular expression (letters, digits,
spaces) the constructor succeeds and source is the search string itself,
and the "i" flag is irrelevant because only the pattern text reaches
DynamoDB.  The embedding therefore uses the search string verbatim as the
operand; search strings that are invalid patterns (such as "(") make the
constructor throw before the scan, a path the catch block turns into a
500 response and which is not embedded here. -/
def matchesSearch (pat : String) (c : Country) : Bool :=
  dynContains c.name pat || dynContains c.region pat || dynContains c.subregion pat

/-- The filtering stage of getAllCountriesPaginated: if (search) installs
the filter only when search is present and non-empty (JavaScript
truthiness). -/
def searchFilter (search : Option String) (items : List Country) : List Country :=
  match search with
  | none => items
  | some s => if s = "" then items else items.filter (matchesSearch s)

/-- The filtered-and-sorted collection the pagination window is cut from:
filtering by search, then Items.sort with the resolved field and
direction (sort_by defaults to a_to_z by destructuring). -/
def listingSorted (qsort qsearch : Option String) (items : List Country) :
    List Country :=
  let fd := resolveSort (qsort.getD "a_to_z")
  sortCountries fd.1 fd.2 (searchFilter qsearch items)

/-- The fields of the 200 response body of getAllCountriesPaginated.
page, pages and per_page are JavaScript numbers because parseInt can
yield NaN (JSON.stringify renders NaN as null). -/
structure ListResponse where
  statusCode : Nat
  list : List Country
  has_next : Bool
  has_prev : Bool
  page : JNum
  pages : JNum
  per_page : JNum
  total : Nat
deriving Repr, DecidableEq

/-- Embedding of getAllCountriesPaginated: query parameters page, limit,
sort_by default by destructuring to "1", "10", "a_to_z" when absent;
skip = (parseInt(page) - 1) * parseInt(limit); the scan result is
filtered, sorted, and windowed with slice(skip, skip + parseInt(limit));
pages = Math.ceil(total / parseInt(limit)), has_next = page < pages,
has_prev = page > 1. -/
def getAllCountriesPaginated (qpage qlimit qsort qsearch : Option String)
    (items : List Country) : ListResponse :=
  let pageN := parseIntJs (qpage.getD "1")
  let limitN := parseIntJs (qlimit.getD "10")
  let skip := jnMul (jnSub pageN (JNum.int 1)) limitN
  let sorted := listingSorted qsort qsearch items
  let total := sorted.length
  let pages := jsCeilDiv total limitN
  { statusCode := 200
    list := jsSlice sorted skip (jnAdd skip limitN)
    has_next := jnLt pageN pages
    has_prev := jnLt (JNum.int 1) pageN
    page := pageN
    pages := pages
    per_page := limitN
    total := total }

/-- ASCII lowercasing of one character, for the case-insensitive
predicate the specification asks of the search feature. -/
def lowerAsciiChar (c : Char) : Char :=
  if 65 ≤ c.toNat ∧ c.toNat ≤ 90 then Char.ofNat (c.toNat + 32) else c

/-- The case-insensitive containment predicate the specification asks of
the search feature: the search text occurs, ignoring case, in name,
region, or subregion.  Stated from the spec for comparison with the
code's filter. -/
def specCiMatches (search : String) (c : Country) : Bool :=
  let ci : Option String → Bool := fun a =>
    match a with
    | none => false
    | some s => containsSub (s.toList.map lowerAsciiChar)
        (search.toList.map lowerAsciiChar)
  ci c.name || ci c.region || ci c.subregion

/-- The persistent state both tables: the CountryTable items and the
NeighborsTable keys (countryID, neighborId). -/
structure StoreState where
  countries : List Country
  neighborRels : List (String × String)
deriving Repr, DecidableEq

/-- Embedding of fetchCountryById's underlying get: the first CountryTable
item whose countryID is the key, none when absent (the handler turns none
into a thrown HttpError 404). -/
def fetchCountryById (s : StoreState) (id : String) : Option Country :=
  s.countries.find? (fun c => c.countryID == id)

/-- Existence of a country record for an identifier. -/
def countryExists (s : StoreState) (id : String) : Bool :=
  (fetchCountryById s id).isSome

/-- Embedding of fetchAllCountryIds: scan of CountryTable projected to
countryID. -/
def fetchAllCountryIds (s : StoreState) : List String :=
  s.countries.map (fun c => c.countryID)

/-- Embedding of fetchNeighborsByCountryId: query of NeighborsTable by
partition key, mapped to neighborId. -/
def fetchNeighborsByCountryId (s : StoreState) (countryID : String) : List String :=
  (s.neighborRels.filter (fun p => p.1 == countryID)).map (fun p => p.2)

/-- Embedding of fetchNeighbor: point get on the compound key, as the
truthiness test the handler applies to output.Item. -/
def fetchNeighbor (s : StoreState) (countryID neighborId : String) : Bool :=
  s.neighborRels.contains (countryID, neighborId)

/-- Embedding of addNeighbor: unconditional put of the compound key. -/
def addNeighborWrite (s : StoreState) (countryID neighborId : String) : StoreState :=
  { s with neighborRels := s.neighborRels ++ [(countryID, neighborId)] }

/-- The error string the handler pushes for a proposed id that is not a
country identifier. -/
def invalidNeighborMsg (id : String) : String :=
  "Invalid neighbor country ID: " ++ id

/-- The error string the handler pushes for a relation that already
exists. -/
def existsNeighborMsg (id : String) : String :=
  "Neighbor with ID " ++ id ++ " already exists for this country"

/-- The per-candidate loop of addNeighbors: existingCountryIds was
fetched once before the loop; each candidate either fails the membership
check (error, skip), fails the live duplicate check (error, skip), or is
written and recorded as added.  Returns (successfulAdditions, errors,
final state) in push order. -/
def addNeighborsLoop (countryID : String) (existingIds : List String) :
    StoreState → List String → List String × List String × StoreState
  | s, [] => ([], [], s)
  | s, n :: rest =>
    if ¬ existingIds.contains n then
      let r := addNeighborsLoop countryID existingIds s rest
      (r.1, invalidNeighborMsg n :: r.2.1, r.2.2)
    else if fetchNeighbor s countryID n then
      let r := addNeighborsLoop countryID existingIds s rest
      (r.1, existsNeighborMsg n :: r.2.1, r.2.2)
    else
      let r := addNeighborsLoop countryID existingIds (addNeighborWrite s countryID n) rest
      (n :: r.1, r.2.1, r.2.2)

/-- The observable response of addNeighbors: the HTTP status, the
data.neighbors list and the errors list (both empty in the 404 body,
whose shape carries neither). -/
structure AddNeighborsResponse where
  statusCode : Nat
  addedNeighbors : List String
  errors : List String
deriving Repr, DecidableEq

/-- Embedding of the addNeighbors handler for a parsed request: resolve
the source country (a miss throws HttpError 404, which the catch block
returns with error.statusCode), fetch all country ids once, run the
per-candidate loop, and answer 400 with neighbors [] when no addition
succeeded, else 200 with the additions and the error list. -/
def addNeighbors (s : StoreState) (countryID : String) (proposed : List String) :
    AddNeighborsResponse × StoreState :=
  match fetchCountryById s countryID with
  | none => ({ statusCode := 404, addedNeighbors := [], errors := [] }, s)
  | some _ =>
    let ids := fetchAllCountryIds s
    let r := addNeighborsLoop countryID ids s proposed
    if r.1.length = 0 then
      ({ statusCode := 400, addedNeighbors := [], errors := r.2.1 }, r.2.2)
    else
      ({ statusCode := 200, addedNeighbors := r.1, errors := r.2.1 }, r.2.2)

/-- The projected public shape getCountryNeighbors returns for each
resolved neighbor. -/
structure NeighborView where
  id : String
  name : Option String
  currency : Option String
  capital : Option String
  region : Option String
deriving Repr, DecidableEq

/-- Projection of a Country record to the public neighbor shape. -/
def toNeighborView (c : Country) : NeighborView :=
  { id := c.countryID, name := c.name, currency := c.currency,
    capital := c.capital, region := c.region }

/-- The observable response of getCountryNeighbors: status and the
data.countries list (empty in an error body, which carries none). -/
structure GetNeighborsResponse where
  statusCode : Nat
  countries : List NeighborView
deriving Repr, DecidableEq

/-- Resolution of every neighbor id to its full record, as the
Promise.all over fetchCountryById behaves: none as soon as any identifier
fails to resolve (the rejected promise), otherwise all the records. -/
def resolveAll (s : StoreState) : List String → Option (List Country)
  | [] => some []
  | n :: rest =>
    match fetchCountryById s n, resolveAll s rest with
    | some c, some cs => some (c :: cs)
    | _, _ => none

/-- Embedding of getCountryNeighbors: resolve the country (a miss throws
HttpError 404, returned by the catch block with error.statusCode), list
the neighbor ids, and resolve each to a full record; a dangling relation
makes its fetchCountryById throw the same HttpError 404, so the whole
Promise.all rejects and the catch block again answers 404. -/
def getCountryNeighbors (s : StoreState) (countryID : String) : GetNeighborsResponse :=
  match fetchCountryById s countryID with
  | none => { statusCode := 404, countries := [] }
  | some _ =>
    let ns := fetchNeighborsByCountryId s countryID
    match resolveAll s ns with
    | none => { statusCode := 404, countries := [] }
    | some resolved => { statusCode := 200, countries := resolved.map toNeighborView }

/-- A raw element of the addCountry request array before an identifier is
assigned: the four schema fields, the optional attributes, and a possible
caller-supplied countryID (overridden by the handler). -/
structure CountryInput where
  countryID : Option String := none
  name : Option String := none
  capital : Option String := none
  region : Option String := none
  currency : Option String := none
  subregion : Option String := none
  population : Option Int := none
  area : Option Int := none
deriving Repr, DecidableEq

/-- yup's string().required() on one attribute: the value must be present
and must not be the empty string. -/
def requiredStringOk : Option String → Bool
  | none => false
  | some s => s ≠ ""

/-- countrySchema.validate on one array element: name, capital, region
and currency must each pass required(). -/
def validateCountry (ci : CountryInput) : Bool :=
  requiredStringOk ci.name && requiredStringOk ci.capital &&
    requiredStringOk ci.region && requiredStringOk ci.currency

/-- The record the handler builds for the i-th element: the input spread
first, then countryID set to the freshly generated identifier, so any
caller-supplied countryID is overridden. -/
def assignCountryId (ci : CountryInput) (fid : String) : Country :=
  { countryID := fid, name := ci.name, capital := ci.capital,
    region := ci.region, currency := ci.currency, subregion := ci.subregion,
    population := ci.population, area := ci.area }

/-- The observable response of addCountry: status and the created array
(empty in the 500 body, which carries only a message). -/
structure AddCountryResponse where
  statusCode : Nat
  body : List Country
deriving Repr, DecidableEq

/-- Embedding of the addCountry handler on a parsed array body: every
element is validated first (Promise.all rejects as soon as any element
fails the schema, which the catch block turns into a 500 before any
write); when all pass, each element gets a fresh uuid (modelled by the
supply fresh applied to the element's position), the whole batch goes to
DynamoDB in one batchWrite, and the stored records are returned with
status 201. -/
def addCountry (fresh : Nat → String) (batch : List CountryInput)
    (store : List Country) : AddCountryResponse × List Country :=
  if batch.all validateCountry then
    let countries := ((List.range batch.length).zip batch).map
      (fun p => assignCountryId p.2 (fresh p.1))
    ({ statusCode := 201, body := countries }, store ++ countries)
  else
    ({ statusCode := 500, body := [] }, store)

/-- Whether a record lacks the attribute a resolved sort field reads. -/
def missingSortField (f : SortField) (c : Country) : Bool :=
  match f with
  | SortField.nameF => c.name.isNone
  | SortField.populationF => c.population.isNone
  | SortField.areaF => c.area.isNone

/-- Sample record: a fully populated country. -/
def cAlpha : Country :=
  { countryID := "A", name := some "Alpha", capital := some "Apex",
    region := some "Europe", currency := some "EUR",
    subregion := some "Western Europe", population := some 10, area := some 5 }

/-- Sample record: a second fully populated country. -/
def cBravo : Country :=
  { countryID := "B", name := some "Bravo", capital := some "Bay",
    region := some "Asia", currency := some "INR",
    subregion := some "South Asia", population := some 20, area := some 7 }

/-- Sample store holding the two sample countries and no relations. -/
def demoStore : StoreState :=
  { countries := [cAlpha, cBravo], neighborRels := [] }

/-- Sample store with a dangling relation: country A exists but its
recorded neighbor ZZ does not. -/
def danglingStore : StoreState :=
  { countries := [cAlpha], neighborRels := [("A", "ZZ")] }

/-- Sample creation input missing required fields (only name given). -/
def badInput : CountryInput :=
  { name := some "N" }

/-- Sample creation input passing the schema, with a caller-supplied
countryID that the handler must override. -/
def goodInput : CountryInput :=
  { countryID := some "CALLER", name := some "N", capital := some "C",
    region := some "R", currency := some "X" }

theorem jnSub_nan_left (x : JNum) : jnSub JNum.nan x = JNum.nan := by
  cases x <;> rfl

theorem jnMul_nan_left (x : JNum) : jnMul JNum.nan x = JNum.nan := by
  cases x <;> rfl

theorem jnMul_nan_right (x : JNum) : jnMul x JNum.nan = JNum.nan := by
  cases x <;> rfl

theorem jnAdd_nan_left (x : JNum) : jnAdd JNum.nan x = JNum.nan := by
  cases x <;> rfl

theorem jnLt_nan_left (x : JNum) : jnLt JNum.nan x = false := by
  cases x <;> rfl

theorem jnLt_nan_right (x : JNum) : jnLt x JNum.nan = false := by
  cases x <;> rfl

theorem jsSlice_nan_nan {α : Type} (xs : List α) :
    jsSlice xs JNum.nan JNum.nan = [] := by
  simp [jsSlice, jsSliceIndex]

/-- C1: the code evaluated at the failing input.  The record named
"Alpha" matches the search text "alpha" case-insensitively, as the claim
requires, yet the code's filter drops it — the operand handed to DynamoDB
contains is tested as a case-sensitive literal — while the exact-case
search "Alpha" retains it. -/
theorem searchFilterCaseSensitiveAtAlpha :
    searchFilter (some "alpha") [cAlpha] = [] ∧
    specCiMatches "alpha" cAlpha = true ∧
    searchFilter (some "Alpha") [cAlpha] = [cAlpha] := by
  decide

/-- C2 is false as stated: for a record missing the resolved sort field
(population) paired with a record that has it, the comparator returns 0 —
the pair compares as equal, not strictly less. -/
theorem missingFieldNotLessCex :
    countryCompare SortField.populationF 1 { countryID := "M" } cAlpha = 0 ∧
    ¬ countryCompare SortField.populationF 1 { countryID := "M" } cAlpha < 0 := by
  decide

/-- C2 (amended): the comparator is a total function, and a pair in which
either record lacks the resolved sort field compares as equal (comparator
value 0, in both argument orders), not strictly less. -/
theorem missingFieldComparesEqual (f : SortField) (dir : Int) (a b : Country)
    (h : missingSortField f a = true) :
    countryCompare f dir a b = 0 ∧ countryCompare f dir b a = 0 := by
  cases f with
  | nameF =>
    have ha : a.name = none := by
      simpa [missingSortField, Option.isNone_iff_eq_none] using h
    cases hb : b.name <;> simp [countryCompare, jsLtOptStr, ha, hb]
  | populationF =>
    have ha : a.population = none := by
      simpa [missingSortField, Option.isNone_iff_eq_none] using h
    cases hb : b.population <;> simp [countryCompare, jsLtOptInt, ha, hb]
  | areaF =>
    have ha : a.area = none := by
      simpa [missingSortField, Option.isNone_iff_eq_none] using h
    cases hb : b.area <;> simp [countryCompare, jsLtOptInt, ha, hb]

theorem missingFieldComparesEqualWitness :
    missingSortField SortField.populationF { countryID := "M" } = true ∧
    (countryCompare SortField.populationF 1 { countryID := "M" } cAlpha = 0 ∧
      countryCompare SortField.populationF 1 cAlpha { countryID := "M" } = 0) :=
  ⟨by decide,
    missingFieldComparesEqual SortField.populationF 1 { countryID := "M" } cAlpha
      (by decide)⟩

/-- C5 is false as stated: with page "abc" the engine does not behave as
if the default page 1 had been supplied — the window comes back empty
instead of the first records, and the page field of the response is NaN
rather than 1. -/
theorem nanPageNotDefaultedCex :
    (getAllCountriesPaginated (some "abc") none none none [cAlpha, cBravo]).list = [] ∧
    (getAllCountriesPaginated none none none none [cAlpha, cBravo]).list =
      [cAlpha, cBravo] ∧
    (getAllCountriesPaginated (some "abc") none none none [cAlpha, cBravo]).page =
      JNum.nan := by
  decide

/-- C5 (amended): a non-numeric page or limit never crashes the engine —
the response still carries status 200 — but the parse failure is not
normalized to the defaults: with a NaN page the item window is empty,
has_next and has_prev are false and the page field of the response is
NaN; with a NaN limit the item window is empty and the pages and
per_page fields are NaN. -/
theorem nanParseBehavior (qp ql qsort qsearch : Option String)
    (items : List Country) :
    (parseIntJs (qp.getD "1") = JNum.nan →
      (getAllCountriesPaginated qp ql qsort qsearch items).statusCode = 200 ∧
      (getAllCountriesPaginated qp ql qsort qsearch items).list = [] ∧
      (getAllCountriesPaginated qp ql qsort qsearch items).has_next = false ∧
      (getAllCountriesPaginated qp ql qsort qsearch items).has_prev = false ∧
      (getAllCountriesPaginated qp ql qsort qsearch items).page = JNum.nan) ∧
    (parseIntJs (ql.getD "10") = JNum.nan →
      (getAllCountriesPaginated qp ql qsort qsearch items).statusCode = 200 ∧
      (getAllCountriesPaginated qp ql qsort qsearch items).list = [] ∧
      (getAllCountriesPaginated qp ql qsort qsearch items).has_next = false ∧
      (getAllCountriesPaginated qp ql qsort qsearch items).pages = JNum.nan ∧
      (getAllCountriesPaginated qp ql qsort qsearch items).per_page = JNum.nan) := by
  constructor
  · intro h
    simp only [getAllCountriesPaginated, h, jnSub_nan_left, jnMul_nan_left,
      jnAdd_nan_left, jsSlice_nan_nan, jnLt_nan_left, jnLt_nan_right]
    simp
  · intro h
    simp only [getAllCountriesPaginated, h, jnMul_nan_right, jnAdd_nan_left,
      jnLt_nan_right]
    cases hp : parseIntJs (qp.getD "1") <;>
      simp [jnSub, jnMul_nan_right, jnAdd_nan_left, jsSlice_nan_nan,
        jsCeilDiv, jnLt_nan_right, jnMul, jnAdd]

theorem nanParseBehaviorWitness :
    parseIntJs "abc" = JNum.nan ∧
    ((getAllCountriesPaginated (some "abc") none none none
        [cAlpha, cBravo]).statusCode = 200 ∧
      (getAllCountriesPaginated (some "abc") none none none
        [cAlpha, cBravo]).list = [] ∧
      (getAllCountriesPaginated (some "abc") none none none
        [cAlpha, cBravo]).has_next = false ∧
      (getAllCountriesPaginated (some "abc") none none none
        [cAlpha, cBravo]).has_prev = false ∧
      (getAllCountriesPaginated (some "abc") none none none
        [cAlpha, cBravo]).page = JNum.nan) :=
  ⟨by decide,
    (nanParseBehavior (some "abc") none none none [cAlpha, cBravo]).1 (by decide)⟩

theorem length_insertCountry (f : SortField) (dir : Int) (x : Country)
    (ys : List Country) : (insertCountry f dir x ys).length = ys.length + 1 := by
  induction ys with
  | nil => rfl
  | cons y ys ih =>
    by_cases h : countryCompare f dir x y ≤ 0 <;> simp [insertCountry, h, ih]

theorem length_sortCountries (f : SortField) (dir : Int) (xs : List Country) :
    (sortCountries f dir xs).length = xs.length := by
  induction xs with
  | nil => rfl
  | cons x xs ih => simp [sortCountries, length_insertCountry, ih]

theorem length_listingSorted (qsort qsearch : Option String)
    (items : List Country) :
    (listingSorted qsort qsearch items).length =
      (searchFilter qsearch items).length := by
  simp [listingSorted, length_sortCountries]

theorem jsSliceIndex_natCast (len a : Nat) :
    jsSliceIndex len (JNum.int (a : Int)) = min a len := by
  have h : ¬ ((a : Int) < 0) := by omega
  simp [jsSliceIndex, h, Int.toNat_natCast]

theorem drop_take_clamp {α : Type} (xs : List α) (s l : Nat) :
    (xs.drop (min s xs.length)).take (min (s + l) xs.length - min s xs.length) =
      (xs.drop s).take l := by
  rcases le_or_lt xs.length s with hs | hs
  · have h1 : min s xs.length = xs.length := by omega
    have h2 : min (s + l) xs.length = xs.length := by omega
    rw [h1, h2, List.drop_length, List.drop_eq_nil_of_le hs]
    simp
  · have h1 : min s xs.length = s := by omega
    rcases le_or_lt (s + l) xs.length with hsl | hsl
    · have h2 : min (s + l) xs.length = s + l := by omega
      rw [h1, h2]
      congr 1
      omega
    · have h2 : min (s + l) xs.length = xs.length := by omega
      rw [h1, h2]
      have hlen : (xs.drop s).length = xs.length - s := List.length_drop ..
      rw [List.take_of_length_le (by omega), List.take_of_length_le (by omega)]

theorem ceil_mul_ge (t l : Nat) (hl : 1 ≤ l) : t ≤ ((t + l - 1) / l) * l := by
  have h := Nat.div_add_mod (t + l - 1) l
  have hr : (t + l - 1) % l < l := Nat.mod_lt _ (by omega)
  generalize hq : (t + l - 1) / l = q at h ⊢
  generalize hrg : (t + l - 1) % l = r at h hr
  rw [Nat.mul_comm l q] at h
  generalize hm : q * l = m at h ⊢
  omega

/-- C4: for positive integer page and limit, the listing engine reports
total equal to the count after filtering, pages equal to
ceil(total / limit), the item window equal to the slice of the sorted
filtered records from index (page-1)*limit of length at most limit
(empty, not an error, when page exceeds pages), has_next true iff
page < pages, and has_prev true iff page > 1. -/
theorem paginationWindow (qsort qsearch : Option String) (items : List Country)
    (ps ls : String) (p l : Nat)
    (hp : parseIntJs ps = JNum.int (p : Int)) (hp1 : 1 ≤ p)
    (hl : parseIntJs ls = JNum.int (l : Int)) (hl1 : 1 ≤ l) :
    (getAllCountriesPaginated (some ps) (some ls) qsort qsearch items).total =
      (searchFilter qsearch items).length ∧
    (getAllCountriesPaginated (some ps) (some ls) qsort qsearch items).pages =
      JNum.int ((((searchFilter qsearch items).length + l - 1) / l : Nat)) ∧
    (getAllCountriesPaginated (some ps) (some ls) qsort qsearch items).list =
      ((listingSorted qsort qsearch items).drop ((p - 1) * l)).take l ∧
    (getAllCountriesPaginated (some ps) (some ls) qsort qsearch items).list.length ≤ l ∧
    ((((searchFilter qsearch items).length + l - 1) / l : Nat) < p →
      (getAllCountriesPaginated (some ps) (some ls) qsort qsearch items).list = []) ∧
    ((getAllCountriesPaginated (some ps) (some ls) qsort qsearch items).has_next = true ↔
      p < (((searchFilter qsearch items).length + l - 1) / l : Nat)) ∧
    ((getAllCountriesPaginated (some ps) (some ls) qsort qsearch items).has_prev = true ↔
      1 < p) := by
  have hlpos : (0 : Int) < (l : Int) := by omega
  have hp' : ((p : Int) - 1) = ((p - 1 : Nat) : Int) := by omega
  have hcast1 : ((p : Int) - 1) * (l : Int) = (((p - 1) * l : Nat) : Int) := by
    rw [hp']
    push_cast
    ring
  have hcast2 : (((p - 1) * l : Nat) : Int) + (l : Int) =
      ((((p - 1) * l + l) : Nat) : Int) := by
    push_cast
    ring
  have hmain : getAllCountriesPaginated (some ps) (some ls) qsort qsearch items =
      { statusCode := 200
        list := jsSlice (listingSorted qsort qsearch items)
          (JNum.int ((((p - 1) * l : Nat)) : Int))
          (JNum.int ((((p - 1) * l + l : Nat)) : Int))
        has_next := jnLt (JNum.int (p : Int))
          (jsCeilDiv (listingSorted qsort qsearch items).length (JNum.int (l : Int)))
        has_prev := jnLt (JNum.int 1) (JNum.int (p : Int))
        page := JNum.int (p : Int)
        pages := jsCeilDiv (listingSorted qsort qsearch items).length (JNum.int (l : Int))
        per_page := JNum.int (l : Int)
        total := (listingSorted qsort qsearch items).length } := by
    simp only [getAllCountriesPaginated, Option.getD_some, hp, hl, jnSub, jnMul,
      jnAdd, hcast1, hcast2]
  have hceil : jsCeilDiv (listingSorted qsort qsearch items).length (JNum.int (l : Int)) =
      JNum.int ((((searchFilter qsearch items).length + l - 1) / l : Nat)) := by
    simp [jsCeilDiv, hlpos, Int.toNat_natCast, length_listingSorted]
  have hslice : jsSlice (listingSorted qsort qsearch items)
      (JNum.int ((((p - 1) * l : Nat)) : Int))
      (JNum.int ((((p - 1) * l + l : Nat)) : Int)) =
      ((listingSorted qsort qsearch items).drop ((p - 1) * l)).take l := by
    simp only [jsSlice, jsSliceIndex_natCast]
    exact drop_take_clamp _ _ _
  refine ⟨?_, ?_, ?_, ?_, ?_, ?_, ?_⟩
  · rw [hmain]
    exact length_listingSorted qsort qsearch items
  · rw [hmain]
    exact hceil
  · rw [hmain]
    exact hslice
  · rw [hmain]
    dsimp only
    rw [hslice]
    simp [List.length_take]
  · intro hgt
    rw [hmain]
    dsimp only
    rw [hslice]
    have htot : (listingSorted qsort qsearch items).length =
        (searchFilter qsearch items).length := length_listingSorted ..
    have h1 : (searchFilter qsearch items).length ≤
        (((searchFilter qsearch items).length + l - 1) / l) * l :=
      ceil_mul_ge _ _ hl1
    have h2 : (((searchFilter qsearch items).length + l - 1) / l) * l ≤ (p - 1) * l :=
      Nat.mul_le_mul_right _ (by omega)
    have h3 : (listingSorted qsort qsearch items).length ≤ (p - 1) * l := by
      rw [htot]
      exact le_trans h1 h2
    rw [List.drop_eq_nil_of_le h3]
    simp
  · rw [hmain]
    dsimp only
    rw [hceil]
    simp only [jnLt, decide_eq_true_eq]
    exact Nat.cast_lt
  · rw [hmain]
    dsimp only
    simp only [jnLt, decide_eq_true_eq]
    constructor
    · intro h
      exact_mod_cast h
    · intro h
      exact_mod_cast h

theorem paginationWindowWitness :
    parseIntJs "2" = JNum.int ((2 : Nat) : Int) ∧
    parseIntJs "1" = JNum.int ((1 : Nat) : Int) ∧
    ((getAllCountriesPaginated (some "2") (some "1") none none [cAlpha, cBravo]).total =
        (searchFilter none [cAlpha, cBravo]).length ∧
      (getAllCountriesPaginated (some "2") (some "1") none none [cAlpha, cBravo]).pages =
        JNum.int ((((searchFilter none [cAlpha, cBravo]).length + 1 - 1) / 1 : Nat)) ∧
      (getAllCountriesPaginated (some "2") (some "1") none none [cAlpha, cBravo]).list =
        ((listingSorted none none [cAlpha, cBravo]).drop ((2 - 1) * 1)).take 1 ∧
      (getAllCountriesPaginated (some "2") (some "1") none none
          [cAlpha, cBravo]).list.length ≤ 1 ∧
      ((((searchFilter none [cAlpha, cBravo]).length + 1 - 1) / 1 : Nat) < 2 →
        (getAllCountriesPaginated (some "2") (some "1") none none [cAlpha, cBravo]).list =
          []) ∧
      ((getAllCountriesPaginated (some "2") (some "1") none none
            [cAlpha, cBravo]).has_next = true ↔
        2 < (((searchFilter none [cAlpha, cBravo]).length + 1 - 1) / 1 : Nat)) ∧
      ((getAllCountriesPaginated (some "2") (some "1") none none
            [cAlpha, cBravo]).has_prev = true ↔
        1 < 2)) :=
  ⟨by decide, by decide,
    paginationWindow none none [cAlpha, cBravo] "2" "1" 2 1 (by decide) (by decide)
      (by decide) (by decide)⟩

theorem countryExists_iff_mem (s : StoreState) (id : String) :
    countryExists s id = true ↔ id ∈ fetchAllCountryIds s := by
  simp only [countryExists, fetchCountryById, fetchAllCountryIds]
  constructor
  · intro h
    obtain ⟨a, ha⟩ := Option.isSome_iff_exists.mp h
    have heq : a.countryID = id := by simpa using List.find?_some ha
    rw [← heq]
    exact List.mem_map.mpr ⟨a, List.mem_of_find?_eq_some ha, rfl⟩
  · intro hx
    obtain ⟨a, hmem, rfl⟩ := List.mem_map.mp hx
    exact List.find?_isSome.mpr ⟨a, hmem, by simp⟩

theorem fetchNeighbor_iff (s : StoreState) (c n : String) :
    fetchNeighbor s c n = true ↔ (c, n) ∈ s.neighborRels := by
  simp [fetchNeighbor]

theorem addNeighborsLoop_countries (c : String) (ids : List String)
    (ps : List String) :
    ∀ s, ((addNeighborsLoop c ids s ps).2.2).countries = s.countries := by
  induction ps with
  | nil => intro s; rfl
  | cons n rest ih =>
    intro s
    by_cases h1 : n ∈ ids
    · by_cases h2 : fetchNeighbor s c n
      · simpa [addNeighborsLoop, h1, h2] using ih s
      · have h3 := ih (addNeighborWrite s c n)
        simpa [addNeighborsLoop, h1, h2, addNeighborWrite] using h3
    · simpa [addNeighborsLoop, h1] using ih s

theorem addNeighborsLoop_rels_mono (c : String) (ids : List String)
    (ps : List String) :
    ∀ s q, q ∈ s.neighborRels →
      q ∈ ((addNeighborsLoop c ids s ps).2.2).neighborRels := by
  induction ps with
  | nil => intro s q hq; exact hq
  | cons n rest ih =>
    intro s q hq
    by_cases h1 : n ∈ ids
    · by_cases h2 : fetchNeighbor s c n
      · simpa [addNeighborsLoop, h1, h2] using ih s q hq
      · have hq2 : q ∈ (addNeighborWrite s c n).neighborRels := by
          simp only [addNeighborWrite, List.mem_append]
          exact Or.inl hq
        simpa [addNeighborsLoop, h1, h2] using ih (addNeighborWrite s c n) q hq2
    · simpa [addNeighborsLoop, h1] using ih s q hq

theorem addNeighborsLoop_rels_sub (c : String) (ids : List String)
    (ps : List String) :
    ∀ s q, q ∈ ((addNeighborsLoop c ids s ps).2.2).neighborRels →
      q ∈ s.neighborRels ∨ (q.1 = c ∧ q.2 ∈ ids) := by
  induction ps with
  | nil => intro s q hq; exact Or.inl hq
  | cons n rest ih =>
    intro s q hq
    by_cases h1 : n ∈ ids
    · by_cases h2 : fetchNeighbor s c n
      · exact ih s q (by simpa [addNeighborsLoop, h1, h2] using hq)
      · have hq2 := ih (addNeighborWrite s c n) q
          (by simpa [addNeighborsLoop, h1, h2] using hq)
        rcases hq2 with hq2 | hq2
        · rcases (by simpa [addNeighborWrite] using hq2 :
              q ∈ s.neighborRels ∨ q = (c, n)) with h | h
          · exact Or.inl h
          · subst h
            exact Or.inr ⟨rfl, h1⟩
        · exact Or.inr hq2
    · exact ih s q (by simpa [addNeighborsLoop, h1] using hq)

theorem addNeighborsLoop_length (c : String) (ids : List String)
    (ps : List String) :
    ∀ s, (addNeighborsLoop c ids s ps).1.length +
      (addNeighborsLoop c ids s ps).2.1.length = ps.length := by
  induction ps with
  | nil => intro s; rfl
  | cons n rest ih =>
    intro s
    by_cases h1 : n ∈ ids
    · by_cases h2 : fetchNeighbor s c n
      · have := ih s
        simp [addNeighborsLoop, h1, h2]
        omega
      · have := ih (addNeighborWrite s c n)
        simp [addNeighborsLoop, h1, h2]
        omega
    · have := ih s
      simp [addNeighborsLoop, h1]
      omega

theorem addNeighborsLoop_added_mem_ids (c : String) (ids : List String)
    (ps : List String) :
    ∀ s x, x ∈ (addNeighborsLoop c ids s ps).1 → x ∈ ids := by
  induction ps with
  | nil => intro s x hx; simp [addNeighborsLoop] at hx
  | cons n rest ih =>
    intro s x hx
    by_cases h1 : n ∈ ids
    · by_cases h2 : fetchNeighbor s c n
      · exact ih s x (by simpa [addNeighborsLoop, h1, h2] using hx)
      · rcases (by simpa [addNeighborsLoop, h1, h2] using hx :
            x = n ∨ x ∈ (addNeighborsLoop c ids (addNeighborWrite s c n) rest).1)
          with h | h
        · subst h; exact h1
        · exact ih (addNeighborWrite s c n) x h
    · exact ih s x (by simpa [addNeighborsLoop, h1] using hx)

theorem addNeighborsLoop_added_fresh (c : String) (ids : List String)
    (ps : List String) :
    ∀ s x, x ∈ (addNeighborsLoop c ids s ps).1 → (c, x) ∉ s.neighborRels := by
  induction ps with
  | nil => intro s x hx; simp [addNeighborsLoop] at hx
  | cons n rest ih =>
    intro s x hx
    by_cases h1 : n ∈ ids
    · by_cases h2 : fetchNeighbor s c n
      · exact ih s x (by simpa [addNeighborsLoop, h1, h2] using hx)
      · rcases (by simpa [addNeighborsLoop, h1, h2] using hx :
            x = n ∨ x ∈ (addNeighborsLoop c ids (addNeighborWrite s c n) rest).1)
          with h | h
        · subst h
          intro hmem
          exact h2 (fetchNeighbor_iff s c x |>.mpr hmem)
        · intro hmem
          have h3 := ih (addNeighborWrite s c n) x h
          apply h3
          simp only [addNeighborWrite, List.mem_append]
          exact Or.inl hmem
    · exact ih s x (by simpa [addNeighborsLoop, h1] using hx)

theorem addNeighborsLoop_invalid_err (c : String) (ids : List String)
    (ps : List String) :
    ∀ s n, n ∈ ps → n ∉ ids →
      invalidNeighborMsg n ∈ (addNeighborsLoop c ids s ps).2.1 := by
  induction ps with
  | nil => intro s n hn; simp at hn
  | cons m rest ih =>
    intro s n hn hnot
    rcases List.mem_cons.mp hn with h | h
    · subst h
      simp [addNeighborsLoop, hnot]
    · by_cases h1 : m ∈ ids
      · by_cases h2 : fetchNeighbor s c m
        · simpa [addNeighborsLoop, h1, h2] using Or.inr (ih s n h hnot)
        · simpa [addNeighborsLoop, h1, h2] using
            ih (addNeighborWrite s c m) n h hnot
      · simpa [addNeighborsLoop, h1] using Or.inr (ih s n h hnot)

theorem addNeighborsLoop_exists_err (c : String) (ids : List String)
    (ps : List String) :
    ∀ s n, n ∈ ps → n ∈ ids → (c, n) ∈ s.neighborRels →
      existsNeighborMsg n ∈ (addNeighborsLoop c ids s ps).2.1 := by
  induction ps with
  | nil => intro s n hn; simp at hn
  | cons m rest ih =>
    intro s n hn hnid hrel
    rcases List.mem_cons.mp hn with h | h
    · subst h
      have h2 : fetchNeighbor s c n = true := (fetchNeighbor_iff s c n).mpr hrel
      simp [addNeighborsLoop, hnid, h2]
    · by_cases h1 : m ∈ ids
      · by_cases h2 : fetchNeighbor s c m
        · simpa [addNeighborsLoop, h1, h2] using Or.inr (ih s n h hnid hrel)
        · have hrel2 : (c, n) ∈ (addNeighborWrite s c m).neighborRels := by
            simp only [addNeighborWrite, List.mem_append]
            exact Or.inl hrel
          simpa [addNeighborsLoop, h1, h2] using
            ih (addNeighborWrite s c m) n h hnid hrel2
      · simpa [addNeighborsLoop, h1] using Or.inr (ih s n h hnid hrel)

theorem addNeighborsLoop_mem_rel (c : String) (ids : List String)
    (ps : List String) :
    ∀ s n, n ∈ ps → n ∈ ids →
      (c, n) ∈ ((addNeighborsLoop c ids s ps).2.2).neighborRels := by
  induction ps with
  | nil => intro s n hn; simp at hn
  | cons m rest ih =>
    intro s n hn hnid
    rcases List.mem_cons.mp hn with h | h
    · subst h
      by_cases h2 : fetchNeighbor s c n
      · have hrel : (c, n) ∈ s.neighborRels := (fetchNeighbor_iff s c n).mp h2
        simpa [addNeighborsLoop, hnid, h2] using
          addNeighborsLoop_rels_mono c ids rest s (c, n) hrel
      · have hrel : (c, n) ∈ (addNeighborWrite s c n).neighborRels := by
          simp [addNeighborWrite]
        simpa [addNeighborsLoop, hnid, h2] using
          addNeighborsLoop_rels_mono c ids rest (addNeighborWrite s c n) (c, n) hrel
    · by_cases h1 : m ∈ ids
      · by_cases h2 : fetchNeighbor s c m
        · simpa [addNeighborsLoop, h1, h2] using ih s n h hnid
        · simpa [addNeighborsLoop, h1, h2] using
            ih (addNeighborWrite s c m) n h hnid
      · simpa [addNeighborsLoop, h1] using ih s n h hnid

theorem addNeighborsLoop_valid_or_exists (c : String) (ids : List String)
    (ps : List String) :
    ∀ s n, n ∈ ps → n ∈ ids →
      n ∈ (addNeighborsLoop c ids s ps).1 ∨
        existsNeighborMsg n ∈ (addNeighborsLoop c ids s ps).2.1 := by
  induction ps with
  | nil => intro s n hn; simp at hn
  | cons m rest ih =>
    intro s n hn hnid
    rcases List.mem_cons.mp hn with h | h
    · subst h
      by_cases h2 : fetchNeighbor s c n
      · right
        simp [addNeighborsLoop, hnid, h2]
      · left
        simp [addNeighborsLoop, hnid, h2]
    · by_cases h1 : m ∈ ids
      · by_cases h2 : fetchNeighbor s c m
        · rcases ih s n h hnid with ha | he
          · exact Or.inl (by simpa [addNeighborsLoop, h1, h2] using ha)
          · exact Or.inr (by simpa [addNeighborsLoop, h1, h2] using Or.inr he)
        · rcases ih (addNeighborWrite s c m) n h hnid with ha | he
          · exact Or.inl (by simpa [addNeighborsLoop, h1, h2] using Or.inr ha)
          · exact Or.inr (by simpa [addNeighborsLoop, h1, h2] using he)
      · rcases ih s n h hnid with ha | he
        · exact Or.inl (by simpa [addNeighborsLoop, h1] using ha)
        · exact Or.inr (by simpa [addNeighborsLoop, h1] using Or.inr he)

/-- C7: referential integrity of the neighbor store — after any
addNeighbors request, every relation in the resulting state either was
already present or joins the request's source country, which was resolved
successfully, to a proposed id that was a member of the fetched set of
all country identifiers; in particular both ends of every new relation
identify Country records existing at the time of the write. -/
theorem neighborReferentialIntegrity (s : StoreState) (c : String)
    (proposed : List String) :
    ∀ q, q ∈ ((addNeighbors s c proposed).2).neighborRels →
      q ∈ s.neighborRels ∨
        (countryExists s q.1 = true ∧ countryExists s q.2 = true) := by
  intro q hq
  unfold addNeighbors at hq
  cases hc : fetchCountryById s c with
  | none =>
    rw [hc] at hq
    exact Or.inl hq
  | some cc =>
    rw [hc] at hq
    by_cases hlen : (addNeighborsLoop c (fetchAllCountryIds s) s proposed).1.length = 0
    · simp only [hlen, if_pos] at hq
      rcases addNeighborsLoop_rels_sub c (fetchAllCountryIds s) proposed s q hq
        with h | ⟨h1, h2⟩
      · exact Or.inl h
      · refine Or.inr ⟨?_, (countryExists_iff_mem s q.2).mpr h2⟩
        rw [h1]
        simp [countryExists, hc]
    · simp only [hlen, if_neg, if_false] at hq
      rcases addNeighborsLoop_rels_sub c (fetchAllCountryIds s) proposed s q hq
        with h | ⟨h1, h2⟩
      · exact Or.inl h
      · refine Or.inr ⟨?_, (countryExists_iff_mem s q.2).mpr h2⟩
        rw [h1]
        simp [countryExists, hc]

theorem neighborReferentialIntegrityWitness :
    ("A", "B") ∈ ((addNeighbors demoStore "A" ["B"]).2).neighborRels ∧
    (("A", "B") ∈ demoStore.neighborRels ∨
      (countryExists demoStore "A" = true ∧ countryExists demoStore "B" = true)) :=
  ⟨by decide,
    neighborReferentialIntegrity demoStore "A" ["B"] ("A", "B") (by decide)⟩

/-- C10: when the source country exists, each proposed neighbor
identifier lands in exactly one of the two result lists, so the length
of added plus the length of errors equals the number of proposed
neighbors. -/
theorem addNeighborsPartition (s : StoreState) (c : String)
    (proposed : List String) (hc : countryExists s c = true) :
    (addNeighbors s c proposed).1.addedNeighbors.length +
      (addNeighbors s c proposed).1.errors.length = proposed.length := by
  have hc' := hc
  unfold countryExists at hc'
  obtain ⟨cc, hcc⟩ := Option.isSome_iff_exists.mp hc'
  unfold addNeighbors
  rw [hcc]
  have hlen := addNeighborsLoop_length c (fetchAllCountryIds s) proposed s
  by_cases h0 : (addNeighborsLoop c (fetchAllCountryIds s) s proposed).1.length = 0
  · simp only [h0, if_pos]
    simp only [List.length_nil]
    omega
  · simp only [h0, if_neg, if_false]
    omega

theorem addNeighborsPartitionWitness :
    countryExists demoStore "A" = true ∧
    (addNeighbors demoStore "A" ["B", "X"]).1.addedNeighbors.length +
      (addNeighbors demoStore "A" ["B", "X"]).1.errors.length =
      (["B", "X"] : List String).length :=
  ⟨by decide, addNeighborsPartition demoStore "A" ["B", "X"] (by decide)⟩

/-- C3: when the source country exists, addNeighbors reports overall
failure (status 400) with an empty neighbors list and the accumulated
error list — one error per proposed element — exactly when zero
additions succeeded, and success (status 200) when at least one
succeeded; in particular one valid plus one invalid proposed neighbor
yields added of length 1, errors of length 1, and status 200. -/
theorem addNeighborsStatusPolicy (s : StoreState) (c : String)
    (proposed : List String) (hc : countryExists s c = true) :
    ((addNeighbors s c proposed).1.addedNeighbors.length = 0 →
        (addNeighbors s c proposed).1.statusCode = 400 ∧
        (addNeighbors s c proposed).1.addedNeighbors = [] ∧
        (addNeighbors s c proposed).1.errors.length = proposed.length) ∧
    (0 < (addNeighbors s c proposed).1.addedNeighbors.length →
        (addNeighbors s c proposed).1.statusCode = 200) ∧
    (∀ v i : String, countryExists s v = true → countryExists s i = false →
        fetchNeighbor s c v = false →
        (addNeighbors s c [v, i]).1.addedNeighbors.length = 1 ∧
        (addNeighbors s c [v, i]).1.errors.length = 1 ∧
        (addNeighbors s c [v, i]).1.statusCode = 200) := by
  have hc' := hc
  unfold countryExists at hc'
  obtain ⟨cc, hcc⟩ := Option.isSome_iff_exists.mp hc'
  have hlen := addNeighborsLoop_length c (fetchAllCountryIds s) proposed s
  have key : addNeighbors s c proposed =
      (if (addNeighborsLoop c (fetchAllCountryIds s) s proposed).1.length = 0
        then ({ statusCode := 400, addedNeighbors := [],
                errors := (addNeighborsLoop c (fetchAllCountryIds s) s proposed).2.1 },
              (addNeighborsLoop c (fetchAllCountryIds s) s proposed).2.2)
        else ({ statusCode := 200,
                addedNeighbors :=
                  (addNeighborsLoop c (fetchAllCountryIds s) s proposed).1,
                errors := (addNeighborsLoop c (fetchAllCountryIds s) s proposed).2.1 },
              (addNeighborsLoop c (fetchAllCountryIds s) s proposed).2.2)) := by
    unfold addNeighbors
    rw [hcc]
  refine ⟨?_, ?_, ?_⟩
  · intro h0
    by_cases hz : (addNeighborsLoop c (fetchAllCountryIds s) s proposed).1.length = 0
    · rw [key, if_pos hz]
      exact ⟨rfl, rfl, by dsimp only; omega⟩
    · rw [key, if_neg hz] at h0
      simp at h0
      simp [h0] at hz
  · intro h0
    by_cases hz : (addNeighborsLoop c (fetchAllCountryIds s) s proposed).1.length = 0
    · rw [key, if_pos hz] at h0
      simp at h0
    · rw [key, if_neg hz]
  · intro v i hv' hi' hfn
    have hv2 : v ∈ fetchAllCountryIds s := (countryExists_iff_mem s v).mp hv'
    have hi2 : i ∉ fetchAllCountryIds s := by
      intro hmem
      rw [(countryExists_iff_mem s i).mpr hmem] at hi'
      exact Bool.true_eq_false.mp hi'
    unfold addNeighbors
    rw [hcc]
    simp [addNeighborsLoop, hv2, hi2, hfn]

theorem addNeighborsStatusPolicyWitness :
    countryExists demoStore "A" = true ∧
    ((addNeighbors demoStore "A" ["B", "X"]).1.addedNeighbors.length = 1 ∧
      (addNeighbors demoStore "A" ["B", "X"]).1.errors.length = 1 ∧
      (addNeighbors demoStore "A" ["B", "X"]).1.statusCode = 200) :=
  ⟨by decide,
    (addNeighborsStatusPolicy demoStore "A" ["B", "X"] (by decide)).2.2 "B" "X"
      (by decide) (by decide) (by decide)⟩

/-- C6 is false as stated: the error string the code produces for an
invalid proposed id is "Invalid neighbor country ID: X", not the claimed
"invalid neighbor country id: X", which never appears in the error
list. -/
theorem neighborErrorStringsCex :
    (addNeighbors demoStore "A" ["X"]).1.errors =
      ["Invalid neighbor country ID: X"] ∧
    "invalid neighbor country id: X" ∉ (addNeighbors demoStore "A" ["X"]).1.errors := by
  decide

/-- C6 (amended): when the source country exists, each proposed neighbor
is processed independently — an id outside the valid-country-identifier
set contributes exactly the error string "Invalid neighbor country ID:
<id>" and is never added; an id whose relation already exists contributes
exactly "Neighbor with ID <id> already exists for this country" and is
never added; no rejection aborts the rest (every valid id still ends in
added or in the already-exists diagnostic); and a second sequential add
of the same (countryID, neighborId) pair lands in errors, not in
added. -/
theorem neighborPerElementProcessing (s : StoreState) (c : String)
    (proposed : List String) (hc : countryExists s c = true) :
    (∀ n, n ∈ proposed → countryExists s n = false →
        invalidNeighborMsg n ∈ (addNeighbors s c proposed).1.errors ∧
        n ∉ (addNeighbors s c proposed).1.addedNeighbors) ∧
    (∀ n, n ∈ proposed → countryExists s n = true → (c, n) ∈ s.neighborRels →
        existsNeighborMsg n ∈ (addNeighbors s c proposed).1.errors ∧
        n ∉ (addNeighbors s c proposed).1.addedNeighbors) ∧
    (∀ n, n ∈ proposed → countryExists s n = true →
        n ∈ (addNeighbors s c proposed).1.addedNeighbors ∨
        existsNeighborMsg n ∈ (addNeighbors s c proposed).1.errors) ∧
    (∀ n, countryExists s n = true →
        (addNeighbors (addNeighbors s c [n]).2 c [n]).1.errors =
          [existsNeighborMsg n] ∧
        (addNeighbors (addNeighbors s c [n]).2 c [n]).1.addedNeighbors = []) := by
  have hc' := hc
  unfold countryExists at hc'
  obtain ⟨cc, hcc⟩ := Option.isSome_iff_exists.mp hc'
  have key : addNeighbors s c proposed =
      (if (addNeighborsLoop c (fetchAllCountryIds s) s proposed).1.length = 0
        then ({ statusCode := 400, addedNeighbors := [],
                errors := (addNeighborsLoop c (fetchAllCountryIds s) s proposed).2.1 },
              (addNeighborsLoop c (fetchAllCountryIds s) s proposed).2.2)
        else ({ statusCode := 200,
                addedNeighbors :=
                  (addNeighborsLoop c (fetchAllCountryIds s) s proposed).1,
                errors := (addNeighborsLoop c (fetchAllCountryIds s) s proposed).2.1 },
              (addNeighborsLoop c (fetchAllCountryIds s) s proposed).2.2)) := by
    unfold addNeighbors
    rw [hcc]
  have herr : (addNeighbors s c proposed).1.errors =
      (addNeighborsLoop c (fetchAllCountryIds s) s proposed).2.1 := by
    rw [key]
    split <;> rfl
  have hadd : ∀ x, x ∈ (addNeighbors s c proposed).1.addedNeighbors ↔
      x ∈ (addNeighborsLoop c (fetchAllCountryIds s) s proposed).1 := by
    intro x
    rw [key]
    by_cases hz : (addNeighborsLoop c (fetchAllCountryIds s) s proposed).1.length = 0
    · rw [if_pos hz]
      have hnil : (addNeighborsLoop c (fetchAllCountryIds s) s proposed).1 = [] :=
        List.length_eq_zero.mp hz
      simp [hnil]
    · rw [if_neg hz]
  refine ⟨?_, ?_, ?_, ?_⟩
  · intro n hn hnex
    have hnid : n ∉ fetchAllCountryIds s := by
      intro hmem
      rw [(countryExists_iff_mem s n).mpr hmem] at hnex
      exact Bool.true_eq_false.mp hnex
    refine ⟨?_, ?_⟩
    · rw [herr]
      exact addNeighborsLoop_invalid_err c (fetchAllCountryIds s) proposed s n hn hnid
    · intro hmem
      exact hnid (addNeighborsLoop_added_mem_ids c (fetchAllCountryIds s) proposed s n
        ((hadd n).mp hmem))
  · intro n hn hex hrel
    have hnid : n ∈ fetchAllCountryIds s := (countryExists_iff_mem s n).mp hex
    refine ⟨?_, ?_⟩
    · rw [herr]
      exact addNeighborsLoop_exists_err c (fetchAllCountryIds s) proposed s n hn hnid hrel
    · intro hmem
      exact addNeighborsLoop_added_fresh c (fetchAllCountryIds s) proposed s n
        ((hadd n).mp hmem) hrel
  · intro n hn hex
    have hnid : n ∈ fetchAllCountryIds s := (countryExists_iff_mem s n).mp hex
    rcases addNeighborsLoop_valid_or_exists c (fetchAllCountryIds s) proposed s n hn hnid
      with ha | he
    · exact Or.inl ((hadd n).mpr ha)
    · exact Or.inr (herr ▸ he)
  · intro n hex
    have hnid : n ∈ fetchAllCountryIds s := (countryExists_iff_mem s n).mp hex
    have key1 : addNeighbors s c [n] =
        (if (addNeighborsLoop c (fetchAllCountryIds s) s [n]).1.length = 0
          then ({ statusCode := 400, addedNeighbors := [],
                  errors := (addNeighborsLoop c (fetchAllCountryIds s) s [n]).2.1 },
                (addNeighborsLoop c (fetchAllCountryIds s) s [n]).2.2)
          else ({ statusCode := 200,
                  addedNeighbors :=
                    (addNeighborsLoop c (fetchAllCountryIds s) s [n]).1,
                  errors := (addNeighborsLoop c (fetchAllCountryIds s) s [n]).2.1 },
                (addNeighborsLoop c (fetchAllCountryIds s) s [n]).2.2)) := by
      unfold addNeighbors
      rw [hcc]
    have hs1 : (addNeighbors s c [n]).2 =
        (addNeighborsLoop c (fetchAllCountryIds s) s [n]).2.2 := by
      rw [key1]
      split <;> rfl
    have hs1c : ((addNeighbors s c [n]).2).countries = s.countries := by
      rw [hs1]
      exact addNeighborsLoop_countries c (fetchAllCountryIds s) [n] s
    have hrel1 : (c, n) ∈ ((addNeighbors s c [n]).2).neighborRels := by
      rw [hs1]
      exact addNeighborsLoop_mem_rel c (fetchAllCountryIds s) [n] s n
        (List.mem_singleton.mpr rfl) hnid
    have hcex1 : fetchCountryById (addNeighbors s c [n]).2 c = some cc := by
      unfold fetchCountryById at hcc ⊢
      rw [hs1c]
      exact hcc
    have hids1 : fetchAllCountryIds (addNeighbors s c [n]).2 = fetchAllCountryIds s := by
      unfold fetchAllCountryIds
      rw [hs1c]
    have hfn1 : fetchNeighbor (addNeighbors s c [n]).2 c n = true :=
      (fetchNeighbor_iff _ c n).mpr hrel1
    generalize hS : (addNeighbors s c [n]).2 = S at hcex1 hids1 hfn1 ⊢
    unfold addNeighbors
    rw [hcex1]
    simp [addNeighborsLoop, hids1, hnid, hfn1]

theorem neighborPerElementProcessingWitness :
    countryExists demoStore "A" = true ∧
    (invalidNeighborMsg "X" ∈ (addNeighbors demoStore "A" ["X", "B"]).1.errors ∧
      "X" ∉ (addNeighbors demoStore "A" ["X", "B"]).1.addedNeighbors) ∧
    ((addNeighbors (addNeighbors demoStore "A" ["B"]).2 "A" ["B"]).1.errors =
        [existsNeighborMsg "B"] ∧
      (addNeighbors (addNeighbors demoStore "A" ["B"]).2 "A" ["B"]).1.addedNeighbors =
        []) :=
  ⟨by decide,
    (neighborPerElementProcessing demoStore "A" ["X", "B"] (by decide)).1 "X"
      (by decide) (by decide),
    (neighborPerElementProcessing demoStore "A" ["X", "B"] (by decide)).2.2.2 "B"
      (by decide)⟩

theorem resolveAll_none (s : StoreState) :
    ∀ (xs : List String) (n : String), n ∈ xs → fetchCountryById s n = none →
      resolveAll s xs = none := by
  intro xs
  induction xs with
  | nil => intro n hn; simp at hn
  | cons y ys ih =>
    intro n hn hfn
    rcases List.mem_cons.mp hn with h | h
    · subst h
      simp [resolveAll, hfn]
    · cases hfy : fetchCountryById s y with
      | none => simp [resolveAll, hfy]
      | some b => simp [resolveAll, hfy, ih n h hfn]

/-- C8 is false as stated: in a store where country A exists and a
stored relation (A, ZZ) points at the missing country ZZ,
getCountryNeighbors for A answers 404 — the same status produced when
the primary countryID itself is absent — not a distinct 500-class
error. -/
theorem danglingNeighborStatusCex :
    (getCountryNeighbors danglingStore "A").statusCode = 404 ∧
    (getCountryNeighbors danglingStore "missing").statusCode = 404 ∧
    ¬ (getCountryNeighbors danglingStore "A").statusCode = 500 := by
  decide

/-- C8 (amended): a stored relation referencing a now-missing country is
not silently dropped — the response is an error, never 200 — but it is
surfaced as the very same 404 status as a missing primary country (the
inner fetchCountryById throws the identical HttpError 404 and the catch
block echoes error.statusCode), not as a distinct 500-class error. -/
theorem danglingNeighborSurfacedAs404 (s : StoreState) (c n : String)
    (hc : countryExists s c = true) (hrel : (c, n) ∈ s.neighborRels)
    (hmiss : fetchCountryById s n = none) :
    (getCountryNeighbors s c).statusCode = 404 ∧
    (getCountryNeighbors s c).statusCode ≠ 200 ∧
    (∀ m, fetchCountryById s m = none →
      (getCountryNeighbors s m).statusCode = 404) := by
  have hc' := hc
  unfold countryExists at hc'
  obtain ⟨cc, hcc⟩ := Option.isSome_iff_exists.mp hc'
  have hn_mem : n ∈ fetchNeighborsByCountryId s c := by
    unfold fetchNeighborsByCountryId
    exact List.mem_map.mpr ⟨(c, n), List.mem_filter.mpr ⟨hrel, by simp⟩, rfl⟩
  have hresolve : resolveAll s (fetchNeighborsByCountryId s c) = none :=
    resolveAll_none s _ n hn_mem hmiss
  have h1 : getCountryNeighbors s c = { statusCode := 404, countries := [] } := by
    simp only [getCountryNeighbors, hcc, hresolve]
  refine ⟨by rw [h1], by rw [h1]; decide, ?_⟩
  intro m hm
  simp only [getCountryNeighbors, hm]

theorem danglingNeighborSurfacedAs404Witness :
    countryExists danglingStore "A" = true ∧
    ("A", "ZZ") ∈ danglingStore.neighborRels ∧
    fetchCountryById danglingStore "ZZ" = none ∧
    ((getCountryNeighbors danglingStore "A").statusCode = 404 ∧
      (getCountryNeighbors danglingStore "A").statusCode ≠ 200) ∧
    (getCountryNeighbors danglingStore "missing").statusCode = 404 :=
  ⟨by decide, by decide, by decide,
    ⟨(danglingNeighborSurfacedAs404 danglingStore "A" "ZZ" (by decide) (by decide)
        (by decide)).1,
      (danglingNeighborSurfacedAs404 danglingStore "A" "ZZ" (by decide) (by decide)
        (by decide)).2.1⟩,
    (danglingNeighborSurfacedAs404 danglingStore "A" "ZZ" (by decide) (by decide)
        (by decide)).2.2 "missing" (by decide)⟩

/-- C9: batch country creation is all-or-nothing on validation and
assigns server-side identifiers — if any record of the batch fails the
schema the handler answers 500 and the store is unchanged (no write);
otherwise the response is 201, the whole batch is appended to the store
in one write, and the i-th stored record carries the i-th freshly
generated identifier regardless of any caller-supplied countryID (the
statement quantifies over all batches, including those whose elements
carry a countryID, which assignCountryId overrides). -/
theorem addCountryBatchValidation (fresh : Nat → String)
    (batch : List CountryInput) (store : List Country) :
    ((∃ ci, ci ∈ batch ∧ validateCountry ci = false) →
        addCountry fresh batch store =
          ({ statusCode := 500, body := [] }, store)) ∧
    ((∀ ci, ci ∈ batch → validateCountry ci = true) →
        (addCountry fresh batch store).1.statusCode = 201 ∧
        (addCountry fresh batch store).2 =
          store ++ (addCountry fresh batch store).1.body ∧
        (addCountry fresh batch store).1.body.length = batch.length ∧
        (∀ i, (hi : i < (addCountry fresh batch store).1.body.length) →
          ((addCountry fresh batch store).1.body.get ⟨i, hi⟩).countryID =
            fresh i)) := by
  constructor
  · rintro ⟨ci, hmem, hbad⟩
    have hall : ¬ (batch.all validateCountry = true) := by
      intro hall
      rw [List.all_eq_true] at hall
      rw [hall ci hmem] at hbad
      exact Bool.true_eq_false.mp hbad
    unfold addCountry
    rw [if_neg hall]
  · intro hval
    have hall : batch.all validateCountry = true :=
      List.all_eq_true.mpr (fun x hx => hval x hx)
    have hbody : (addCountry fresh batch store).1.body =
        ((List.range batch.length).zip batch).map
          (fun p => assignCountryId p.2 (fresh p.1)) := by
      unfold addCountry
      rw [if_pos hall]
    have hlen : (addCountry fresh batch store).1.body.length = batch.length := by
      rw [hbody]
      simp
    refine ⟨?_, ?_, hlen, ?_⟩
    · unfold addCountry
      rw [if_pos hall]
    · unfold addCountry
      rw [if_pos hall]
    · intro i hi
      rw [List.get_eq_getElem]
      have hi' : i < batch.length := by omega
      simp only [hbody, List.getElem_map, List.getElem_zip, List.getElem_range]
      rfl

theorem addCountryBatchValidationWitness :
    (∃ ci, ci ∈ [badInput] ∧ validateCountry ci = false) ∧
    addCountry (fun k => toString k) [badInput] [cAlpha] =
      ({ statusCode := 500, body := [] }, [cAlpha]) ∧
    (∀ ci, ci ∈ [goodInput] → validateCountry ci = true) ∧
    (addCountry (fun k => toString k) [goodInput] []).1.statusCode = 201 ∧
    (∀ i, (hi : i < (addCountry (fun k => toString k)
        [goodInput] []).1.body.length) →
      ((addCountry (fun k => toString k) [goodInput] []).1.body.get
        ⟨i, hi⟩).countryID = toString i) :=
  ⟨⟨badInput, by decide, by decide⟩,
    (addCountryBatchValidation (fun k => toString k) [badInput] [cAlpha]).1
      ⟨badInput, by decide, by decide⟩,
    by decide,
    ((addCountryBatchValidation (fun k => toString k) [goodInput] []).2
      (by decide)).1,
    ((addCountryBatchValidation (fun k => toString k) [goodInput] []).2
      (by decide)).2.2.2⟩
